import Mathlib

/-!
Shallow embedding of the `canadalocalproduceapi` Express server
(`src/server.js`): the listing Query Builder, the search endpoint,
product update, and the product-request moderation workflow
(submit / decide), together with proofs of the specification claims.

JavaScript numbers are modelled as `Option ℚ`, with `none` standing
for `NaN`; string-to-number coercion (`Number(s)`, `parseFloat(s)`)
is modelled by an explicit decimal parser over the character list.
-/

namespace ProduceApi

/-- JS whitespace characters recognised when coercing strings to numbers. -/
def isWs (c : Char) : Bool :=
  c = ' ' || c = '\t' || c = '\n' || c = '\r'

/-- Strip leading and trailing whitespace from a character list. -/
def trimWs (l : List Char) : List Char :=
  ((l.dropWhile isWs).reverse.dropWhile isWs).reverse

/-- Read a maximal run of decimal digits; returns the digits and the rest. -/
def readDigits : List Char → List Char × List Char
  | [] => ([], [])
  | c :: cs =>
    if c.isDigit then
      let p := readDigits cs
      (c :: p.1, p.2)
    else ([], c :: cs)

/-- Numeric value of a digit run. -/
def digitsNat (l : List Char) : Nat :=
  l.foldl (fun a c => a * 10 + (c.toNat - 48)) 0

/-- Parse an unsigned decimal number (`123`, `123.45`, `123.`, `.45`)
from the front of the list; returns its value and the unconsumed rest. -/
def parseAfterSign (l : List Char) : Option (ℚ × List Char) :=
  let ip := readDigits l
  match ip.2 with
  | '.' :: rest =>
    let fp := readDigits rest
    if ip.1.isEmpty && fp.1.isEmpty then none
    else some ((digitsNat ip.1 : ℚ) + (digitsNat fp.1 : ℚ) / 10 ^ fp.1.length, fp.2)
  | _ => if ip.1.isEmpty then none else some ((digitsNat ip.1 : ℚ), ip.2)

/-- Parse an optionally signed decimal number from the front of the list. -/
def parseNumCore (l : List Char) : Option (ℚ × List Char) :=
  match l with
  | '-' :: r => (parseAfterSign r).map (fun p => (-p.1, p.2))
  | '+' :: r => parseAfterSign r
  | _ => parseAfterSign l

/-- Parse a decimal number that must consume the whole list. -/
def parseFull (l : List Char) : Option ℚ :=
  match parseNumCore l with
  | some (q, []) => some q
  | _ => none

/-- Model of JavaScript `Number(s)` on strings: trims whitespace, maps the
empty (or all-whitespace) string to `0`, otherwise requires the whole
remaining string to be a decimal literal; `none` is `NaN`. -/
def jsNumber (s : String) : Option ℚ :=
  let l := trimWs s.data
  if l.isEmpty then some 0 else parseFull l

/-- Model of JavaScript `parseFloat(s)`: skips leading whitespace and parses
the longest numeric prefix; `none` is `NaN`. -/
def parseFloatQ (s : String) : Option ℚ :=
  (parseNumCore (s.data.dropWhile isWs)).map Prod.fst

/-- JS `x >= 0` where `x` may be `NaN` (`NaN >= 0` is `false`). -/
def jsGeZero : Option ℚ → Bool
  | some q => 0 ≤ q
  | none => false

/-- `validatePrice` from `server.js`:
`return !isNaN(price) && parseFloat(price) >= 0;` applied to a query-string
value. -/
def validatePrice (price : String) : Bool :=
  (jsNumber price).isSome && jsGeZero (parseFloatQ price)

/-- A JavaScript value as it appears among the bound query parameters:
either a string from the query string or a number (`none` = `NaN`). -/
inductive JVal where
  | str (s : String)
  | num (n : Option ℚ)
deriving DecidableEq, Repr

/-- Coerce a `JVal` to a JS number, as `-` and `*` do. -/
def jvNum : JVal → Option ℚ
  | .str s => jsNumber s
  | .num n => n

/-- NaN-propagating binary arithmetic on JS numbers. -/
def jsBin (f : ℚ → ℚ → ℚ) : Option ℚ → Option ℚ → Option ℚ
  | some a, some b => some (f a b)
  | _, _ => none

/-- JS subtraction (with NaN). -/
def jsSub (a b : Option ℚ) : Option ℚ := jsBin (fun x y => x - y) a b

/-- JS multiplication (with NaN). -/
def jsMul (a b : Option ℚ) : Option ℚ := jsBin (fun x y => x * y) a b

/-- A query-string field is "present" for the purposes of JS truthiness
tests (`if (category_id)`, `if (min_price)`): defined and non-empty. -/
def presentStr : Option String → Bool
  | none => false
  | some s => s ≠ ""

/-- One WHERE condition pushed by the listing handler, carrying the raw
query-string value that is pushed as the matching bound parameter. -/
inductive Cond where
  | catEq (v : String)
  | priceGe (v : String)
  | priceLe (v : String)
deriving DecidableEq, Repr

/-- The SQL text pushed for a condition; `n` is `params.length + 1` at push
time. The category clause hardcodes `$1` exactly as the source does. -/
def condText : Cond → Nat → String
  | .catEq _, _ => "category_id = $1"
  | .priceGe _, n => "price >= $" ++ toString n
  | .priceLe _, n => "price <= $" ++ toString n

/-- The raw query-string value bound for a condition. -/
def condParam : Cond → String
  | .catEq v => v
  | .priceGe v => v
  | .priceLe v => v

/-- The conditions pushed for one optional filter. -/
def optCond (f : String → Cond) : Option String → List Cond
  | none => []
  | some s => if s = "" then [] else [f s]

/-- The WHERE conditions built by the listing handler, in push order:
category equality, then price lower bound, then price upper bound. -/
def listConds (category_id min_price max_price : Option String) : List Cond :=
  optCond .catEq category_id ++ optCond .priceGe min_price ++ optCond .priceLe max_price

/-- The full SQL text built by the listing handler for a condition list and
the interpolated `sort_by` / `order` strings. -/
def listText (conds : List Cond) (sort_by order : String) : String :=
  "SELECT * FROM products" ++
    (if conds.isEmpty then ""
     else " WHERE " ++ String.intercalate " AND "
       (conds.enum.map (fun ic => condText ic.2 (ic.1 + 1)))) ++
    " ORDER BY " ++ sort_by ++ " " ++ order ++
    " LIMIT $" ++ toString (conds.length + 1) ++
    " OFFSET $" ++ toString (conds.length + 2)

/-- The bound parameter list: one raw string per condition in push order,
then the limit value, then the computed offset. -/
def listParams (conds : List Cond) (limitJ : JVal) (offset : Option ℚ) : List JVal :=
  conds.map (fun c => JVal.str (condParam c)) ++ [limitJ, JVal.num offset]

/-- Outcome of the listing handler: an early 400, or the statement text and
bound parameters handed to `pool.query`. -/
inductive ListResult where
  | badRequest (error : String)
  | query (text : String) (params : List JVal)
deriving DecidableEq, Repr

/-- The `page` value after destructuring with default `1`: the raw string
when supplied, else the number `1`. -/
def pageJVal : Option String → JVal
  | some s => .str s
  | none => .num (some 1)

/-- The `limit` value after destructuring with default `10`. -/
def limitJVal : Option String → JVal
  | some s => .str s
  | none => .num (some 10)

/-- The `GET /api/products` handler from `server.js`: destructures the query
string with defaults (`page = 1`, `limit = 10`, `sort_by = 'id'`,
`order = 'ASC'`), computes `offset = (page - 1) * limit`, validates the two
price filters, builds the conjunctive WHERE clause and the ORDER BY /
LIMIT / OFFSET tail, and returns the statement and parameters. -/
def getProducts (page limit category_id min_price max_price sort_by order :
    Option String) : ListResult :=
  let pageJ := pageJVal page
  let limitJ := limitJVal limit
  let sortS := sort_by.getD "id"
  let orderS := order.getD "ASC"
  let offset := jsMul (jsSub (jvNum pageJ) (some 1)) (jvNum limitJ)
  if presentStr min_price && !validatePrice (min_price.getD "") then
    .badRequest "Invalid min_price"
  else if presentStr max_price && !validatePrice (max_price.getD "") then
    .badRequest "Invalid max_price"
  else
    let conds := listConds category_id min_price max_price
    .query (listText conds sortS orderS) (listParams conds limitJ offset)

/-- A strict parse of a string as a store-side number (Postgres cast of a
bound text parameter to `numeric`): surrounding whitespace allowed, the rest
must be one decimal literal. -/
def pgParseQ (s : String) : Option ℚ :=
  parseFull (trimWs s.data)

/-- A stored `products` row. Column values are nullable (`none` = SQL NULL);
numeric columns hold store-side numbers. -/
structure ProductRow where
  id : Nat
  name : Option String
  description : Option String
  price : Option ℚ
  category_id : Option ℚ
  image_url : Option String
  affiliate_url : Option String
  address : Option String
deriving DecidableEq, Repr

/-- A stored `product_requests` row. -/
structure RequestRow where
  id : Nat
  user_id : Option ℚ
  name : Option String
  description : Option String
  price : Option ℚ
  category_id : Option ℚ
  image_url : Option String
  affiliate_url : Option String
  address : Option String
  status : String
deriving DecidableEq, Repr

/-- The relational store: the two tables the claims touch, plus the
store-assigned next identifiers. -/
structure DB where
  products : List ProductRow
  product_requests : List RequestRow
  nextProductId : Nat
  nextRequestId : Nat
deriving DecidableEq, Repr

/-- Store-side evaluation of one WHERE condition against a row: the bound
text parameter is cast to a number and compared; a NULL column never
satisfies a comparison. -/
def evalCond (p : ProductRow) : Cond → Bool
  | .catEq v =>
    match p.category_id, pgParseQ v with
    | some c, some w => c = w
    | _, _ => false
  | .priceGe v =>
    match p.price, pgParseQ v with
    | some pr, some w => w ≤ pr
    | _, _ => false
  | .priceLe v =>
    match p.price, pgParseQ v with
    | some pr, some w => pr ≤ w
    | _, _ => false

/-- Store-side execution of the listing statement: filter by the conjunction
of the conditions, order by some row ordering `sortf` (the ORDER BY clause,
kept abstract as a function), skip `off` rows, return at most `lim` rows. -/
def runListQuery (sortf : List ProductRow → List ProductRow) (db : DB)
    (conds : List Cond) (lim off : Nat) : List ProductRow :=
  (((sortf (db.products.filter (fun p => conds.all (evalCond p))))).drop off).take lim

/-- ASCII lowercasing of one character, as SQL `lower()` does for the
patterns at hand (model restricted to ASCII letters). -/
def lowChar (c : Char) : Char :=
  match c with
  | 'A' => 'a' | 'B' => 'b' | 'C' => 'c' | 'D' => 'd' | 'E' => 'e'
  | 'F' => 'f' | 'G' => 'g' | 'H' => 'h' | 'I' => 'i' | 'J' => 'j'
  | 'K' => 'k' | 'L' => 'l' | 'M' => 'm' | 'N' => 'n' | 'O' => 'o'
  | 'P' => 'p' | 'Q' => 'q' | 'R' => 'r' | 'S' => 's' | 'T' => 't'
  | 'U' => 'u' | 'V' => 'v' | 'W' => 'w' | 'X' => 'x' | 'Y' => 'y'
  | 'Z' => 'z' | d => d

/-- Lowercase a character list. -/
def lowerL (l : List Char) : List Char := l.map lowChar

/-- SQL LIKE pattern matching over character lists: `%` matches any
sequence, `_` any single character, `\` escapes the next pattern
character; everything else matches literally. -/
def likeMatch : List Char → List Char → Bool
  | [], [] => true
  | [], _ :: _ => false
  | '%' :: ps, [] => likeMatch ps []
  | '%' :: ps, c :: s => likeMatch ps (c :: s) || likeMatch ('%' :: ps) (s : List Char)
  | '_' :: _, [] => false
  | '_' :: ps, _ :: s => likeMatch ps s
  | ['\\'], _ => false
  | '\\' :: _ :: _, [] => false
  | '\\' :: p :: ps, c :: s => p = c && likeMatch ps s
  | _ :: _, [] => false
  | p :: ps, c :: s => p = c && likeMatch ps s
termination_by p s => (p.length, s.length)

/-- `column ILIKE pattern` for a nullable text column: NULL never matches;
otherwise case-insensitive LIKE. -/
def ilikeOpt (v : Option String) (pat : String) : Bool :=
  match v with
  | none => false
  | some s => likeMatch (lowerL pat.data) (lowerL s.data)

/-- Outcome of the search handler. -/
inductive SearchResult where
  | badRequest (error : String)
  | rows (rs : List ProductRow)
deriving DecidableEq, Repr

/-- The `GET /api/products/search` handler: a missing or empty (falsy)
`query` yields a 400 before any store access; otherwise the store runs
`SELECT * FROM products WHERE name ILIKE $1 OR description ILIKE $1` with
the parameter `'%' + query + '%'`. -/
def searchProducts (db : DB) (query : Option String) : SearchResult :=
  match query with
  | none => .badRequest "Search query is required"
  | some q =>
    if q = "" then .badRequest "Search query is required"
    else
      let pat := "%" ++ q ++ "%"
      .rows (db.products.filter (fun p => ilikeOpt p.name pat || ilikeOpt p.description pat))

/-- A JSON body value for the numeric request fields: the client may send a
number or a string; express-validator validates either form. -/
inductive Jv where
  | str (s : String)
  | num (q : ℚ)
deriving DecidableEq, Repr

/-- Parse a string as a strict optionally signed integer (full consumption),
as the `isInt` validator's regular expression does. -/
def parseIntStr (s : String) : Option ℤ :=
  let core : List Char → Option ℤ := fun l =>
    let p := readDigits l
    if p.1.isEmpty then none
    else match p.2 with
      | [] => some (digitsNat p.1 : ℤ)
      | _ :: _ => none
  match s.data with
  | '-' :: r => (core r).map (fun n => -n)
  | '+' :: r => core r
  | l => core l

/-- Model of the express-validator chain `isFloat({ gt: 0 })` on a body
field: a missing field fails; a number must be positive; a string must be a
full decimal literal with positive value. -/
def isFloatGtZero : Option Jv → Bool
  | none => false
  | some (.num q) => 0 < q
  | some (.str s) =>
    match parseFull s.data with
    | some q => 0 < q
    | none => false

/-- Model of the express-validator chain `isInt({ gt: 0 })` on a body field:
a missing field fails; a number must be a positive integer; a string must be
a strict integer literal with positive value. -/
def isIntGtZero : Option Jv → Bool
  | none => false
  | some (.num q) => q.den = 1 && 0 < q
  | some (.str s) =>
    match parseIntStr s with
    | some n => 0 < n
    | none => false

/-- Model of the express-validator `notEmpty()` check on a body field:
a missing field or the empty string fails. -/
def notEmptyStr : Option String → Bool
  | none => false
  | some s => s ≠ ""

/-- Split a character list on `.` separators. -/
def splitDots : List Char → List (List Char)
  | [] => [[]]
  | '.' :: r => [] :: splitDots r
  | c :: r =>
    match splitDots r with
    | [] => [[c]]
    | h :: t => (c :: h) :: t

/-- Drop `pre` from the front of `l` when it is a prefix, else return `l`. -/
def dropPrefixL (pre l : List Char) : List Char :=
  if pre.isPrefixOf l then l.drop pre.length else l

/-- Simplified model of the validator.js `isURL()` check: non-empty, no
spaces, and — after stripping an optional scheme and the path — a dotted
host of at least two labels whose final label is alphabetic. -/
def isURLStr : Option String → Bool
  | none => false
  | some s =>
    let afterScheme :=
      dropPrefixL "ftp://".data (dropPrefixL "http://".data (dropPrefixL "https://".data s.data))
    let host := afterScheme.takeWhile (· ≠ '/')
    let labels := splitDots host
    s ≠ "" && !(s.data.any (· = ' ')) && labels.length ≥ 2 &&
      (match labels.getLast? with
       | some tld => !tld.isEmpty && tld.all (·.isAlpha)
       | none => false)

/-- The JSON body of `POST /api/product-requests`, destructured as the
handler does (`none` = field absent). -/
structure SubmitBody where
  name : Option String
  description : Option String
  price : Option Jv
  category_id : Option Jv
  image_url : Option String
  affiliate_url : Option String
  user_id : Option Jv
  address : Option String
deriving DecidableEq, Repr

/-- The field-level validation messages collected by the declared validator
chain of `POST /api/product-requests`, in declaration order; `address` is
`optional()` and never rejects a string-or-absent value. -/
def submitErrors (b : SubmitBody) : List String :=
  (if notEmptyStr b.name then [] else ["Name is required"]) ++
  (if notEmptyStr b.description then [] else ["Description is required"]) ++
  (if isFloatGtZero b.price then [] else ["Price must be a positive number"]) ++
  (if isIntGtZero b.category_id then [] else ["Category ID must be a positive integer"]) ++
  (if isURLStr b.image_url then [] else ["Image URL must be a valid URL"]) ++
  (if isURLStr b.affiliate_url then [] else ["Affiliate URL must be a valid URL"]) ++
  (if isIntGtZero b.user_id then [] else ["User ID must be a positive integer"])

/-- The store-side cast of a bound numeric body value to the `numeric`
column type. -/
def pgCastJv : Jv → Option ℚ
  | .num q => some q
  | .str s => pgParseQ s

/-- Modelled from the spec: the `product_requests` table schema (absent from
the source tree) gives the `status` column the default value `pending`; the
submit INSERT names no `status` column, so a newly inserted request receives
this default. -/
def defaultRequestStatus : String := "pending"

/-- Outcome of the submit handler. -/
inductive SubmitResult where
  | validationError (msgs : List String)
  | created (r : RequestRow)
deriving DecidableEq, Repr

/-- The `POST /api/product-requests` handler: run the validator chain; on
any error answer 400 with the collected messages and touch the store not at
all; otherwise insert one `product_requests` row (status from the column
default) and return the stored row (`RETURNING *`). -/
def submitProductRequest (db : DB) (b : SubmitBody) : DB × SubmitResult :=
  let errs := submitErrors b
  if errs.isEmpty then
    let row : RequestRow :=
      { id := db.nextRequestId
        user_id := b.user_id.bind pgCastJv
        name := b.name
        description := b.description
        price := b.price.bind pgCastJv
        category_id := b.category_id.bind pgCastJv
        image_url := b.image_url
        affiliate_url := b.affiliate_url
        address := b.address
        status := defaultRequestStatus }
    ({ db with
        product_requests := db.product_requests ++ [row]
        nextRequestId := db.nextRequestId + 1 },
     .created row)
  else (db, .validationError errs)

/-- A new `products` row materialised from an approved request: the same
field values, minus the submitting-user reference, under a fresh product id. -/
def mkProductFromRequest (db : DB) (pr : RequestRow) : ProductRow :=
  { id := db.nextProductId
    name := pr.name
    description := pr.description
    price := pr.price
    category_id := pr.category_id
    image_url := pr.image_url
    affiliate_url := pr.affiliate_url
    address := pr.address }

/-- Outcome of the decide handler. -/
inductive DecideResult where
  | invalidStatus (error : String)
  | notFound (error : String)
  | decided (message : String)
deriving DecidableEq, Repr

/-- The `PUT /api/product-requests/:id` handler: reject a status other than
`approved`/`rejected` with 400 before any store access; look the request up
(first store query) and answer 404 if absent; on `approved` insert one
product row from the request's stored fields (second query); finally update
the request's status (last query). The third component counts the store
queries executed. -/
def decideRequest (db : DB) (rid : Nat) (status : Option String) :
    DB × DecideResult × Nat :=
  if status ≠ some "approved" && status ≠ some "rejected" then
    (db, .invalidStatus "Invalid status. Status must be \"approved\" or \"rejected\".", 0)
  else
    match db.product_requests.find? (fun r => r.id = rid) with
    | none => (db, .notFound "Product request not found", 1)
    | some pr =>
      let s := status.getD ""
      let db1 :=
        if status = some "approved" then
          { db with
              products := db.products ++ [mkProductFromRequest db pr]
              nextProductId := db.nextProductId + 1 }
        else db
      let db2 :=
        { db1 with
            product_requests :=
              db1.product_requests.map
                (fun r => if r.id = rid then { r with status := s } else r) }
      (db2, .decided ("Product request " ++ s),
        if status = some "approved" then 3 else 2)

/-- The JSON body of `PUT /api/products/:id`, destructured as the handler
does: only `name`, `description`, `price`, `category_id`, `image_url` and
`address` are read (`affiliate_url` is not). -/
structure UpdateBody where
  name : Option String
  description : Option String
  price : Option ℚ
  category_id : Option ℚ
  image_url : Option String
  address : Option String
deriving DecidableEq, Repr

/-- The `PUT /api/products/:id` handler: one UPDATE writing the six
destructured fields of every row with the given id (absent body fields are
written as NULL), `RETURNING *`; the response is the first returned row, or
empty when no row matched. -/
def updateProduct (db : DB) (pid : Nat) (b : UpdateBody) : DB × Option ProductRow :=
  let write : ProductRow → ProductRow := fun p =>
    { p with
        name := b.name
        description := b.description
        price := b.price
        category_id := b.category_id
        image_url := b.image_url
        address := b.address }
  let newProducts := db.products.map (fun p => if p.id = pid then write p else p)
  ({ db with products := newProducts }, newProducts.find? (fun p => p.id = pid))

/-- A concrete pending request used to instantiate the C1 theorem. -/
def c1Req : RequestRow :=
  ⟨1, some 4, some "Pear", some "ripe fruit", some 2, some 3,
    some "http://img.example.com/p", some "http://aff.example.com/p", none, "pending"⟩

/-- A concrete store holding only `c1Req`. -/
def c1Db : DB := ⟨[], [c1Req], 7, 2⟩

/-- The stored product used by the C9 counterexample and witness. -/
def c9Row : ProductRow :=
  ⟨1, some "Apple", some "fruit", some 3, some 2,
    some "http://img.example.com/a", some "http://aff.example.com/old", none⟩

/-- The update body used by the C9 counterexample and witness. -/
def c9Body : UpdateBody :=
  ⟨some "Apple2", some "fruit2", some 4, some 2, some "http://img.example.com/b", none⟩

/-- The row the claim says an Update must produce: every §3 field written as
provided, including an affiliate URL taken from the request body. -/
def c9ClaimRow (p : ProductRow) (b : UpdateBody) (affiliate : Option String) : ProductRow :=
  { id := p.id
    name := b.name
    description := b.description
    price := b.price
    category_id := b.category_id
    image_url := b.image_url
    affiliate_url := affiliate
    address := b.address }

/-- The first character of `w`, if any, is not a digit. -/
def headNotDigit : List Char → Prop
  | [] => True
  | c :: _ => c.isDigit = false

/-- The first character of `w`, if any, is not a dot. -/
def headNotDot : List Char → Prop
  | [] => True
  | c :: _ => c ≠ '.'

/-- Stated from the spec's words (§4.1 step 2): the conjunctive filter
contains a category-equality clause if `category_id` is present, a
lower-bound clause if `min_price` is present, an upper-bound clause if
`max_price` is present, in that order; absent (or empty, hence not
"present") filters are omitted. -/
def specFilterClauses (category_id min_price max_price : Option String) : List Cond :=
  (match category_id with
   | some s => if s = "" then [] else [Cond.catEq s]
   | none => []) ++
  (match min_price with
   | some s => if s = "" then [] else [Cond.priceGe s]
   | none => []) ++
  (match max_price with
   | some s => if s = "" then [] else [Cond.priceLe s]
   | none => [])

/-- Stated from the spec's words: the numeric value of a pagination
parameter, with its default when absent. -/
def specNumVal (v : Option String) (d : ℚ) : ℚ :=
  match v with
  | none => d
  | some s => (jsNumber s).getD d

/-- Stated from the spec's words: `offset = (page - 1) * limit`, `page`
defaulting to 1 and `limit` to 10. -/
def specOffset (page limit : Option String) : ℚ :=
  (specNumVal page 1 - 1) * specNumVal limit 10

/-- The stored product used by the C5 witness. -/
def c5Row : ProductRow :=
  ⟨1, some "Apple", some "fruit", some 3, some 2,
    some "http://img.example.com/a", some "http://aff.example.com/a", none⟩

/-- Case-insensitive substring containment of `q` in a nullable column
(`none`, i.e. SQL NULL, contains nothing) — the matching the claim
describes. -/
def substrCI (v : Option String) (q : String) : Bool :=
  match v with
  | none => false
  | some s => decide (lowerL q.data <:+: lowerL s.data)

/-- The stored product used by the C7 counterexample: its name `axb` does
not contain the string `a%b`. -/
def c7Row : ProductRow :=
  ⟨1, some "axb", some "zzz", some 3, some 2,
    some "http://img.example.com/a", some "http://aff.example.com/a", none⟩

section Theorems

/-- C2: a Decide with a status outside {approved, rejected} fails with
InvalidParameter (400), runs zero store queries and leaves the store
unchanged; a Decide with a valid status on an unknown id fails with
NotFound (404) after the lookup query only, leaving the store unchanged. -/
theorem decide_validates_status_and_existence :
    (∀ (db : DB) (rid : Nat) (status : Option String),
      status ≠ some "approved" → status ≠ some "rejected" →
      decideRequest db rid status =
        (db, .invalidStatus "Invalid status. Status must be \"approved\" or \"rejected\".", 0)) ∧
    (∀ (db : DB) (rid : Nat) (s : String),
      (s = "approved" ∨ s = "rejected") →
      db.product_requests.find? (fun r => r.id = rid) = none →
      decideRequest db rid (some s) = (db, .notFound "Product request not found", 1)) := by
  constructor
  · intro db rid status h1 h2
    simp [decideRequest, h1, h2]
  · intro db rid s hs hfind
    rcases hs with hs | hs <;> subst hs <;> simp [decideRequest, hfind]

/-- C2 witness: a concrete store, an unknown id and the status "maybe". -/
theorem decide_validates_status_and_existence_witness :
    decideRequest ⟨[], [], 1, 1⟩ 5 (some "maybe") =
      (⟨[], [], 1, 1⟩, .invalidStatus "Invalid status. Status must be \"approved\" or \"rejected\".", 0) ∧
    decideRequest ⟨[], [], 1, 1⟩ 5 (some "rejected") =
      (⟨[], [], 1, 1⟩, .notFound "Product request not found", 1) := by
  constructor
  · exact decide_validates_status_and_existence.1 ⟨[], [], 1, 1⟩ 5 (some "maybe")
      (by decide) (by decide)
  · exact decide_validates_status_and_existence.2 ⟨[], [], 1, 1⟩ 5 "rejected"
      (Or.inr rfl) (by decide)

/-- C1: deciding an existing request with "approved" appends exactly one new
product row whose fields are the request's stored values (minus the
submitting user), and sets the status of the request's rows to "approved";
deciding with "rejected" inserts no product row and sets the status to
"rejected". -/
theorem decide_approved_inserts_rejected_does_not :
    ∀ (db : DB) (rid : Nat) (pr : RequestRow),
      db.product_requests.find? (fun r => r.id = rid) = some pr →
      ((decideRequest db rid (some "approved")).1.products =
          db.products ++
            [{ id := db.nextProductId
               name := pr.name
               description := pr.description
               price := pr.price
               category_id := pr.category_id
               image_url := pr.image_url
               affiliate_url := pr.affiliate_url
               address := pr.address }] ∧
        (decideRequest db rid (some "approved")).1.product_requests =
          db.product_requests.map
            (fun r => if r.id = rid then { r with status := "approved" } else r) ∧
        (decideRequest db rid (some "approved")).2.1 =
          .decided "Product request approved") ∧
      ((decideRequest db rid (some "rejected")).1.products = db.products ∧
        (decideRequest db rid (some "rejected")).1.product_requests =
          db.product_requests.map
            (fun r => if r.id = rid then { r with status := "rejected" } else r) ∧
        (decideRequest db rid (some "rejected")).2.1 =
          .decided "Product request rejected") := by
  intro db rid pr hfind
  refine ⟨⟨?_, ?_, ?_⟩, ⟨?_, ?_, ?_⟩⟩ <;>
    simp [decideRequest, hfind, mkProductFromRequest]

/-- C1 witness: deciding the concrete request "approved" materialises
exactly the one expected product row and flips the stored status. -/
theorem decide_approved_inserts_rejected_does_not_witness :
    (decideRequest c1Db 1 (some "approved")).1.products =
      [⟨7, some "Pear", some "ripe fruit", some 2, some 3,
        some "http://img.example.com/p", some "http://aff.example.com/p", none⟩] ∧
    (decideRequest c1Db 1 (some "approved")).1.product_requests =
      [{ c1Req with status := "approved" }] ∧
    (decideRequest c1Db 1 (some "rejected")).1.products = [] ∧
    (decideRequest c1Db 1 (some "rejected")).1.product_requests =
      [{ c1Req with status := "rejected" }] := by
  have h := decide_approved_inserts_rejected_does_not c1Db 1 c1Req (by decide)
  refine ⟨?_, ?_, ?_, ?_⟩
  · simpa [c1Db] using h.1.1
  · simpa [c1Db, c1Req] using h.1.2.1
  · simpa [c1Db] using h.2.1
  · simpa [c1Db, c1Req] using h.2.2.1

/-- C8: a submission with any failing validator answers the field-level
messages and leaves the store untouched; a submission passing every
validator inserts exactly one request row, stored with the default status
"pending" and the next assigned identifier, and returns that stored row. -/
theorem submit_validates_then_inserts_pending :
    (∀ (db : DB) (b : SubmitBody),
      submitErrors b ≠ [] →
      submitProductRequest db b = (db, .validationError (submitErrors b))) ∧
    (∀ (db : DB) (b : SubmitBody),
      submitErrors b = [] →
      ∃ row : RequestRow,
        submitProductRequest db b =
          ({ db with
              product_requests := db.product_requests ++ [row]
              nextRequestId := db.nextRequestId + 1 }, .created row) ∧
        row.status = "pending" ∧
        row.id = db.nextRequestId ∧
        row.name = b.name ∧
        row.description = b.description ∧
        row.price = b.price.bind pgCastJv ∧
        row.category_id = b.category_id.bind pgCastJv ∧
        row.image_url = b.image_url ∧
        row.affiliate_url = b.affiliate_url ∧
        row.user_id = b.user_id.bind pgCastJv ∧
        row.address = b.address) := by
  constructor
  · intro db b hne
    simp [submitProductRequest, hne]
  · intro db b he
    refine ⟨{ id := db.nextRequestId
              user_id := b.user_id.bind pgCastJv
              name := b.name
              description := b.description
              price := b.price.bind pgCastJv
              category_id := b.category_id.bind pgCastJv
              image_url := b.image_url
              affiliate_url := b.affiliate_url
              address := b.address
              status := defaultRequestStatus }, ?_, ?_, ?_, ?_, ?_, ?_, ?_, ?_, ?_, ?_, ?_⟩ <;>
      simp [submitProductRequest, he, defaultRequestStatus]

/-- C8 witness: a request with `price = -5` fails validation and changes
nothing; the same request with a valid price is stored as "pending". -/
theorem submit_validates_then_inserts_pending_witness :
    submitProductRequest ⟨[], [], 1, 9⟩
        ⟨some "Pear", some "ripe fruit", some (.num (-5)), some (.num 3),
          some "http://img.example.com/p", some "http://aff.example.com/p",
          some (.num 4), none⟩ =
      (⟨[], [], 1, 9⟩, .validationError ["Price must be a positive number"]) ∧
    ∃ row : RequestRow,
      submitProductRequest ⟨[], [], 1, 9⟩
          ⟨some "Pear", some "ripe fruit", some (.num 2), some (.num 3),
            some "http://img.example.com/p", some "http://aff.example.com/p",
            some (.num 4), none⟩ =
        (⟨[], [row], 1, 10⟩, .created row) ∧
      row.status = "pending" ∧ row.id = 9 := by
  constructor
  · have h := submit_validates_then_inserts_pending.1 ⟨[], [], 1, 9⟩
      ⟨some "Pear", some "ripe fruit", some (.num (-5)), some (.num 3),
        some "http://img.example.com/p", some "http://aff.example.com/p",
        some (.num 4), none⟩ (by decide)
    have he : submitErrors
        ⟨some "Pear", some "ripe fruit", some (.num (-5)), some (.num 3),
          some "http://img.example.com/p", some "http://aff.example.com/p",
          some (.num 4), none⟩ = ["Price must be a positive number"] := by decide
    rw [he] at h
    exact h
  · obtain ⟨row, h1, h2, h3, _⟩ := submit_validates_then_inserts_pending.2 ⟨[], [], 1, 9⟩
      ⟨some "Pear", some "ripe fruit", some (.num 2), some (.num 3),
        some "http://img.example.com/p", some "http://aff.example.com/p",
        some (.num 4), none⟩ (by decide)
    exact ⟨row, by simpa using h1, h2, h3⟩

/-- Updating rows by id leaves a list without a matching row unchanged. -/
theorem map_update_of_find?_none (l : List ProductRow) (pid : Nat)
    (g : ProductRow → ProductRow)
    (h : l.find? (fun r => r.id = pid) = none) :
    l.map (fun r => if r.id = pid then g r else r) = l := by
  induction l with
  | nil => rfl
  | cons a t ih =>
    by_cases hp : a.id = pid
    · rw [List.find?_cons_of_pos _ (by simp [hp])] at h
      cases h
    · rw [List.find?_cons_of_neg _ (by simp [hp])] at h
      simp only [List.map_cons, if_neg hp]
      rw [ih h]

/-- Updating rows by id turns the first matching row into its updated form,
provided the update preserves the id. -/
theorem find?_map_update (l : List ProductRow) (pid : Nat)
    (g : ProductRow → ProductRow) (hg : ∀ r, (g r).id = r.id) (a : ProductRow)
    (h : l.find? (fun r => r.id = pid) = some a) :
    (l.map (fun r => if r.id = pid then g r else r)).find? (fun r => r.id = pid) =
      some (g a) := by
  induction l with
  | nil => simp [List.find?] at h
  | cons c t ih =>
    by_cases hp : c.id = pid
    · rw [List.find?_cons_of_pos _ (by simp [hp])] at h
      injection h with h2
      subst h2
      simp only [List.map_cons, if_pos hp]
      exact List.find?_cons_of_pos _ (by simp [hg, hp])
    · rw [List.find?_cons_of_neg _ (by simp [hp])] at h
      simp only [List.map_cons, if_neg hp]
      rw [List.find?_cons_of_neg _ (by simp [hp])]
      exact ih h

/-- C9 (amended): Update writes exactly the six destructured fields — name,
description, price, category reference, image URL, address — as provided
(absent fields as NULL), leaves `affiliate_url` at its stored value, and
returns the updated row, or an empty result when no row has the id. -/
theorem update_writes_six_fields_preserves_affiliate :
    (∀ (db : DB) (pid : Nat) (b : UpdateBody),
      db.products.find? (fun r => r.id = pid) = none →
      updateProduct db pid b = (db, none)) ∧
    (∀ (db : DB) (pid : Nat) (b : UpdateBody) (p : ProductRow),
      db.products.find? (fun r => r.id = pid) = some p →
      (updateProduct db pid b).2 =
        some { id := p.id
               name := b.name
               description := b.description
               price := b.price
               category_id := b.category_id
               image_url := b.image_url
               affiliate_url := p.affiliate_url
               address := b.address }) := by
  constructor
  · intro db pid b h
    simp only [updateProduct]
    rw [map_update_of_find?_none _ _ _ h, h]
  · intro db pid b p h
    have hfu := find?_map_update db.products pid
      (fun r => ⟨r.id, b.name, b.description, b.price, b.category_id,
        b.image_url, r.affiliate_url, b.address⟩) (fun r => rfl) p h
    simpa [updateProduct] using hfu

/-- C9 counterexample: an Update whose body carries the affiliate URL
`http://aff.example.com/new` does not write it — the stored row keeps
`http://aff.example.com/old`, so the returned row differs from the row the
claim demands. -/
theorem update_does_not_write_affiliate_counterexample :
    (updateProduct ⟨[c9Row], [], 2, 1⟩ 1 c9Body).2 ≠
      some (c9ClaimRow c9Row c9Body (some "http://aff.example.com/new")) ∧
    ((updateProduct ⟨[c9Row], [], 2, 1⟩ 1 c9Body).2.map
        (fun u => u.affiliate_url)) = some (some "http://aff.example.com/old") := by
  constructor
  · decide
  · decide

/-- C9 witness: on the concrete store the Update returns the row with the
six fields replaced and the affiliate URL preserved. -/
theorem update_writes_six_fields_preserves_affiliate_witness :
    updateProduct ⟨[c9Row], [], 2, 1⟩ 5 c9Body = (⟨[c9Row], [], 2, 1⟩, none) ∧
    (updateProduct ⟨[c9Row], [], 2, 1⟩ 1 c9Body).2 =
      some ⟨1, some "Apple2", some "fruit2", some 4, some 2,
        some "http://img.example.com/b", some "http://aff.example.com/old", none⟩ := by
  constructor
  · exact update_writes_six_fields_preserves_affiliate.1 ⟨[c9Row], [], 2, 1⟩ 5 c9Body (by decide)
  · have h := update_writes_six_fields_preserves_affiliate.2 ⟨[c9Row], [], 2, 1⟩ 1 c9Body
      c9Row (by decide)
    simpa [c9Row, c9Body] using h

/-- C6: the caller-supplied `sort_by` and `order` strings are interpolated
verbatim into the SQL command text between the fixed fragments — they are
not among the bound parameters, and no allow-list restricts them — and the
command text consequently depends injectively on the raw `sort_by` input. -/
theorem sort_order_interpolated_unrestricted :
    (∀ sb ord : String,
      getProducts none none none none none (some sb) (some ord) =
        .query ("SELECT * FROM products" ++ " ORDER BY " ++ sb ++ " " ++ ord ++
          " LIMIT $" ++ "1" ++ " OFFSET $" ++ "2")
          [.num (some 10), .num (some 0)]) ∧
    (∀ sb1 sb2 ord : String,
      getProducts none none none none none (some sb1) (some ord) =
        getProducts none none none none none (some sb2) (some ord) →
      sb1 = sb2) := by
  have h1 : (toString (1 : Nat) : String) = "1" := rfl
  have h2 : (toString (2 : Nat) : String) = "2" := rfl
  have key : ∀ sb ord : String,
      getProducts none none none none none (some sb) (some ord) =
        .query ("SELECT * FROM products" ++ " ORDER BY " ++ sb ++ " " ++ ord ++
          " LIMIT $" ++ "1" ++ " OFFSET $" ++ "2")
          [.num (some 10), .num (some 0)] := by
    intro sb ord
    simp only [getProducts, presentStr, validatePrice, listConds, optCond, listText,
      listParams, pageJVal, limitJVal, jvNum, jsMul, jsSub, jsBin]
    norm_num [h1, h2]
  refine ⟨key, ?_⟩
  intro sb1 sb2 ord h
  rw [key sb1 ord, key sb2 ord] at h
  injection h with ht _
  have hd := congrArg String.data ht
  simp only [String.data_append, List.append_assoc] at hd
  apply String.ext
  exact List.append_cancel_right (List.append_cancel_left (List.append_cancel_left hd))

/-- C6 witness: a hostile `sort_by` flows verbatim into the command text;
the injectivity part applied at a concrete pair. -/
theorem sort_order_interpolated_unrestricted_witness :
    getProducts none none none none none
        (some "price; DROP TABLE products; --") (some "DESC") =
      .query "SELECT * FROM products ORDER BY price; DROP TABLE products; -- DESC LIMIT $1 OFFSET $2"
        [.num (some 10), .num (some 0)] ∧
    ("name" : String) = "name" := by
  constructor
  · rw [sort_order_interpolated_unrestricted.1 "price; DROP TABLE products; --" "DESC"]
    decide
  · exact sort_order_interpolated_unrestricted.2 "name" "name" "ASC" rfl

/-- C10: the listing handler answers 400 exactly when a supplied price
filter fails `validatePrice` — `page`, `limit`, `category_id`, `sort_by`
and `order` are never rejected — and in every non-rejecting run the raw
`limit` value and the computed `(page - 1) * limit` offset (possibly NaN or
negative) are bound as the final two store parameters with no validation. -/
theorem listing_rejects_only_prices_forwards_pagination :
    (∀ page limit category_id min_price max_price sort_by order : Option String,
      (∃ e, getProducts page limit category_id min_price max_price sort_by order =
          .badRequest e) ↔
        ((presentStr min_price && !validatePrice (min_price.getD "")) = true ∨
          (presentStr max_price && !validatePrice (max_price.getD "")) = true)) ∧
    (∀ page limit category_id min_price max_price sort_by order : Option String,
      (presentStr min_price && !validatePrice (min_price.getD "")) = false →
      (presentStr max_price && !validatePrice (max_price.getD "")) = false →
      ∃ t : String,
        getProducts page limit category_id min_price max_price sort_by order =
          .query t
            ((listConds category_id min_price max_price).map
                (fun c => JVal.str (condParam c)) ++
              [limitJVal limit,
               JVal.num (jsMul (jsSub (jvNum (pageJVal page)) (some 1))
                 (jvNum (limitJVal limit)))])) := by
  constructor
  · intro page limit category_id min_price max_price sort_by order
    by_cases hb1 : (presentStr min_price && !validatePrice (min_price.getD "")) = true
    · simp [getProducts, hb1]
    · by_cases hb2 : (presentStr max_price && !validatePrice (max_price.getD "")) = true <;>
        simp [getProducts, hb1, hb2]
  · intro page limit category_id min_price max_price sort_by order hm hM
    refine ⟨listText (listConds category_id min_price max_price)
      (sort_by.getD "id") (order.getD "ASC"), ?_⟩
    simp [getProducts, hm, hM, listParams]

/-- C10 witness: a non-numeric `page` with a string `limit` is not
rejected; the bound parameters end with the raw limit string and a NaN
offset. -/
theorem listing_rejects_only_prices_forwards_pagination_witness :
    ∃ t : String,
      getProducts (some "abc") (some "5") none none none none none =
        .query t [JVal.str "5", JVal.num none] := by
  obtain ⟨t, ht⟩ := listing_rejects_only_prices_forwards_pagination.2
    (some "abc") (some "5") none none none none none (by decide) (by decide)
  exact ⟨t, by simpa using ht⟩

/-- Unfolding `readDigits` at a digit. -/
theorem readDigits_cons_digit (c : Char) (cs : List Char) (hc : c.isDigit = true) :
    readDigits (c :: cs) = (c :: (readDigits cs).1, (readDigits cs).2) := by
  simp [readDigits, hc]

/-- Unfolding `readDigits` at a non-digit. -/
theorem readDigits_cons_nondigit (c : Char) (cs : List Char) (hc : c.isDigit = false) :
    readDigits (c :: cs) = ([], c :: cs) := by
  simp [readDigits, hc]

/-- `readDigits` splits its input into the digit prefix and the rest. -/
theorem readDigits_spec (l : List Char) :
    l = (readDigits l).1 ++ (readDigits l).2 ∧
      ∀ c ∈ (readDigits l).1, c.isDigit = true := by
  induction l with
  | nil => exact ⟨rfl, by simp [readDigits]⟩
  | cons c cs ih =>
    by_cases hc : c.isDigit
    · rw [readDigits_cons_digit c cs hc]
      refine ⟨?_, ?_⟩
      · simpa using ih.1
      · intro x hx
        rcases List.mem_cons.mp hx with hx | hx
        · simpa [hx] using hc
        · exact ih.2 x hx
    · rw [readDigits_cons_nondigit c cs (by simpa using hc)]
      exact ⟨rfl, by simp⟩

/-- `readDigits` consumes exactly a digit run when what follows cannot
extend it. -/
theorem readDigits_append (a w : List Char) (ha : ∀ c ∈ a, c.isDigit = true)
    (hw : headNotDigit w) : readDigits (a ++ w) = (a, w) := by
  induction a with
  | nil =>
    cases w with
    | nil => rfl
    | cons c cs =>
      simp only [headNotDigit] at hw
      simpa using readDigits_cons_nondigit c cs hw
  | cons c a' ih =>
    have hc : c.isDigit = true := ha c (by simp)
    have ih2 := ih (fun x hx => ha x (by simp [hx]))
    rw [List.cons_append, readDigits_cons_digit c (a' ++ w) hc, ih2]

/-- Unfolding `parseAfterSign` when the digit run is followed by a dot. -/
theorem parseAfterSign_eq_dot (l rest : List Char) (h : (readDigits l).2 = '.' :: rest) :
    parseAfterSign l =
      (if (readDigits l).1.isEmpty && (readDigits rest).1.isEmpty then none
       else some ((digitsNat (readDigits l).1 : ℚ) +
         (digitsNat (readDigits rest).1 : ℚ) / 10 ^ (readDigits rest).1.length,
         (readDigits rest).2)) := by
  simp only [parseAfterSign]
  rw [h]
  rfl

/-- Unfolding `parseAfterSign` when the digit run consumes everything. -/
theorem parseAfterSign_eq_nil (l : List Char) (h : (readDigits l).2 = []) :
    parseAfterSign l =
      (if (readDigits l).1.isEmpty then none
       else some ((digitsNat (readDigits l).1 : ℚ), [])) := by
  simp only [parseAfterSign]
  rw [h]

/-- Unfolding `parseAfterSign` when the digit run stops at a non-dot. -/
theorem parseAfterSign_eq_other (l : List Char) (c : Char) (cs : List Char)
    (h : (readDigits l).2 = c :: cs) (hc : c ≠ '.') :
    parseAfterSign l =
      (if (readDigits l).1.isEmpty then none
       else some ((digitsNat (readDigits l).1 : ℚ), c :: cs)) := by
  simp only [parseAfterSign]
  rw [h]
  simp [hc]

/-- A fully consumed unsigned parse is unaffected by appending material that
can extend neither a digit run nor start a fraction dot. -/
theorem parseAfterSign_append (l w : List Char) (q : ℚ)
    (h : parseAfterSign l = some (q, []))
    (hwd : headNotDigit w) (hwdot : headNotDot w) :
    parseAfterSign (l ++ w) = some (q, w) := by
  obtain ⟨hdec, hdig⟩ := readDigits_spec l
  rcases hrest : (readDigits l).2 with _ | ⟨c, cs⟩
  · -- the digit run consumed all of `l`
    rw [parseAfterSign_eq_nil l hrest] at h
    by_cases he : (readDigits l).1.isEmpty
    · simp [he] at h
    · simp only [he, Bool.false_eq_true, if_false, Option.some.injEq, Prod.mk.injEq] at h
      have hl : l = (readDigits l).1 := by
        conv_lhs => rw [hdec]
        rw [hrest, List.append_nil]
      have hr : readDigits (l ++ w) = ((readDigits l).1, w) := by
        conv_lhs => rw [hl]
        exact readDigits_append _ w hdig hwd
      rcases w with _ | ⟨d, ds⟩
    -- append nothing: the original equation
      · rw [List.append_nil, parseAfterSign_eq_nil l hrest]
        simp [he, h.1]
      · have hd : d ≠ '.' := hwdot
        rw [parseAfterSign_eq_other (l ++ (d :: ds)) d ds (by rw [hr]) hd]
        rw [hr]
        simp [he, h.1]
  · by_cases hc : c = '.'
    · subst hc
      rw [parseAfterSign_eq_dot l cs hrest] at h
      by_cases hg : ((readDigits l).1.isEmpty && (readDigits cs).1.isEmpty)
      · simp [hg] at h
      · simp only [hg, Bool.false_eq_true, if_false, Option.some.injEq, Prod.mk.injEq] at h
        obtain ⟨hdec2, hdig2⟩ := readDigits_spec cs
        have hcs : cs = (readDigits cs).1 := by
          conv_lhs => rw [hdec2]
          rw [h.2, List.append_nil]
        have hlw : l ++ w = (readDigits l).1 ++ ('.' :: ((readDigits cs).1 ++ w)) := by
          conv_lhs => rw [hdec, hrest, hcs]
          simp
        have hr1 : readDigits (l ++ w) = ((readDigits l).1, '.' :: ((readDigits cs).1 ++ w)) := by
          rw [hlw]
          exact readDigits_append _ _ hdig (by simp [headNotDigit])
        have hr2 : readDigits ((readDigits cs).1 ++ w) = ((readDigits cs).1, w) :=
          readDigits_append _ w hdig2 hwd
        rw [parseAfterSign_eq_dot (l ++ w) ((readDigits cs).1 ++ w) (by rw [hr1])]
        rw [hr1, hr2]
        simp [hg, h.1]
    · rw [parseAfterSign_eq_other l c cs hrest hc] at h
      by_cases he : (readDigits l).1.isEmpty <;> simp [he] at h

/-- A fully consumed signed parse is unaffected by appending material that
can extend neither a digit run nor start a fraction dot. -/
theorem parseNumCore_append (l w : List Char) (q : ℚ)
    (h : parseNumCore l = some (q, []))
    (hwd : headNotDigit w) (hwdot : headNotDot w) :
    parseNumCore (l ++ w) = some (q, w) := by
  rcases l with _ | ⟨c, r⟩
  · simp only [parseNumCore, parseAfterSign, readDigits] at h
    simp at h
  · by_cases hminus : c = '-'
    · subst hminus
      rw [List.cons_append]
      simp only [parseNumCore] at h ⊢
      rcases hp : parseAfterSign r with _ | ⟨q0, rest0⟩
      · rw [hp] at h
        simp at h
      · rw [hp] at h
        simp only [Option.map_some', Option.some.injEq, Prod.mk.injEq] at h
        rw [parseAfterSign_append r w q0 (by rw [hp, h.2]) hwd hwdot]
        simp [h.1]
    · by_cases hplus : c = '+'
      · subst hplus
        rw [List.cons_append]
        simp only [parseNumCore] at h ⊢
        exact parseAfterSign_append r w q h hwd hwdot
      · have hl : parseNumCore (c :: r) = parseAfterSign (c :: r) := by
          simp only [parseNumCore]
          split
          · next hh => simp at hh; exact (hminus hh.1).elim
          · next hh => simp at hh; exact (hplus hh.1).elim
          · rfl
        have hl2 : parseNumCore ((c :: r) ++ w) = parseAfterSign ((c :: r) ++ w) := by
          simp only [parseNumCore, List.cons_append]
          split
          · next hh => simp at hh; exact (hminus hh.1).elim
          · next hh => simp at hh; exact (hplus hh.1).elim
          · rfl
        rw [hl] at h
        rw [hl2]
        exact parseAfterSign_append _ w q h hwd hwdot

/-- Dropping leading whitespace yields the trimmed list followed by the
trailing whitespace. -/
theorem dropWhile_eq_trim_append (l : List Char) :
    ∃ w, l.dropWhile isWs = trimWs l ++ w ∧ ∀ c ∈ w, isWs c = true := by
  refine ⟨((l.dropWhile isWs).reverse.takeWhile isWs).reverse, ?_, ?_⟩
  · conv_lhs => rw [← List.reverse_reverse (l.dropWhile isWs),
      ← List.takeWhile_append_dropWhile (p := isWs) (l := (l.dropWhile isWs).reverse)]
    rw [List.reverse_append]
    rfl
  · intro c hc
    exact List.mem_takeWhile_imp (List.mem_reverse.mp hc)

/-- Whitespace is not a digit. -/
theorem ws_not_digit (c : Char) (h : isWs c = true) : c.isDigit = false := by
  simp [isWs] at h
  rcases h with ((h | h) | h) | h <;> subst h <;> decide

/-- Whitespace is not a dot. -/
theorem ws_not_dot (c : Char) (h : isWs c = true) : c ≠ '.' := by
  simp [isWs] at h
  rcases h with ((h | h) | h) | h <;> subst h <;> decide

/-- Whenever `Number(s)` yields a non-zero value, `parseFloat(s)` yields the
same value: the only strings on which the two parses disagree while
`Number` succeeds are whitespace-only (value 0). -/
theorem parseFloatQ_of_jsNumber (s : String) (q : ℚ)
    (h : jsNumber s = some q) (hq : q ≠ 0) : parseFloatQ s = some q := by
  by_cases hemp : (trimWs s.data).isEmpty
  · simp [jsNumber, hemp] at h
    exact (hq h.symm).elim
  · have hfull : parseFull (trimWs s.data) = some q := by
      simpa [jsNumber, hemp] using h
    have hcore : parseNumCore (trimWs s.data) = some (q, []) := by
      rcases hc : parseNumCore (trimWs s.data) with _ | ⟨q0, rest⟩
      · simp [parseFull, hc] at hfull
      · rcases rest with _ | ⟨r0, rs⟩
        · have hqq : q0 = q := by simpa [parseFull, hc] using hfull
          rw [hqq]
        · simp [parseFull, hc] at hfull
    obtain ⟨w, hA, hws⟩ := dropWhile_eq_trim_append s.data
    have hwd : headNotDigit w := by
      cases w with
      | nil => trivial
      | cons c cs => exact ws_not_digit c (hws c (by simp))
    have hwdot : headNotDot w := by
      cases w with
      | nil => trivial
      | cons c cs => exact ws_not_dot c (hws c (by simp))
    simp only [parseFloatQ, hA]
    rw [parseNumCore_append _ w q hcore hwd hwdot]
    rfl

/-- A supplied price value that is non-numeric, or numeric but negative,
fails `validatePrice`. -/
theorem validatePrice_false_of_badparse (s : String)
    (h : jsNumber s = none ∨ ∃ q, jsNumber s = some q ∧ q < 0) :
    validatePrice s = false := by
  rcases h with h | ⟨q, hq, hneg⟩
  · simp [validatePrice, h]
  · have hpf : parseFloatQ s = some q :=
      parseFloatQ_of_jsNumber s q hq (by exact ne_of_lt hneg)
    simp [validatePrice, hpf, jsGeZero, not_le.mpr hneg]

/-- C4: a supplied `min_price` that does not parse as a non-negative number
(non-numeric, or numeric but negative) makes the listing answer 400 naming
`min_price`, with no statement handed to the store; likewise for
`max_price` when `min_price` passes validation. -/
theorem listing_rejects_malformed_prices :
    (∀ (page limit category_id max_price sort_by order : Option String) (s : String),
      s ≠ "" →
      (jsNumber s = none ∨ ∃ q, jsNumber s = some q ∧ q < 0) →
      getProducts page limit category_id (some s) max_price sort_by order =
        .badRequest "Invalid min_price") ∧
    (∀ (page limit category_id min_price sort_by order : Option String) (s : String),
      (presentStr min_price && !validatePrice (min_price.getD "")) = false →
      s ≠ "" →
      (jsNumber s = none ∨ ∃ q, jsNumber s = some q ∧ q < 0) →
      getProducts page limit category_id min_price (some s) sort_by order =
        .badRequest "Invalid max_price") := by
  constructor
  · intro page limit category_id max_price sort_by order s hs hbad
    have hvp := validatePrice_false_of_badparse s hbad
    simp [getProducts, presentStr, hs, hvp]
  · intro page limit category_id min_price sort_by order s hmin hs hbad
    have hvp := validatePrice_false_of_badparse s hbad
    simp only [getProducts, hmin, Bool.false_eq_true, if_false]
    simp [presentStr, hs, hvp]

/-- C4 witness: `min_price = "abc"` (non-numeric) and, with a valid
`min_price`, `max_price = "-1"` (negative) are rejected without a query. -/
theorem listing_rejects_malformed_prices_witness :
    getProducts none none none (some "abc") none none none =
      .badRequest "Invalid min_price" ∧
    getProducts none none none (some "2") (some "-1") none none =
      .badRequest "Invalid max_price" := by
  constructor
  · exact listing_rejects_malformed_prices.1 none none none none none none "abc"
      (by decide) (Or.inl (by decide))
  · exact listing_rejects_malformed_prices.2 none none none (some "2") none none "-1"
      (by decide) (by decide) (Or.inr ⟨-1, by decide, by decide⟩)

/-- The spec-side clause list coincides with the one the handler builds. -/
theorem specFilterClauses_eq (a b c : Option String) :
    specFilterClauses a b c = listConds a b c := by
  cases a <;> cases b <;> cases c <;> rfl

/-- Under well-formed pagination values the handler's JS offset arithmetic
computes the spec's offset. -/
theorem offset_eq_specOffset (page limit : Option String)
    (hp : ∀ s, page = some s → (jsNumber s).isSome = true)
    (hl : ∀ s, limit = some s → (jsNumber s).isSome = true) :
    jsMul (jsSub (jvNum (pageJVal page)) (some 1)) (jvNum (limitJVal limit)) =
      some (specOffset page limit) := by
  cases page with
  | none =>
    cases limit with
    | none => simp [pageJVal, limitJVal, jvNum, jsMul, jsSub, jsBin, specOffset, specNumVal]
    | some t =>
      obtain ⟨v, hv⟩ := Option.isSome_iff_exists.mp (hl t rfl)
      simp [pageJVal, limitJVal, jvNum, jsMul, jsSub, jsBin, specOffset, specNumVal, hv]
  | some s =>
    obtain ⟨u, hu⟩ := Option.isSome_iff_exists.mp (hp s rfl)
    cases limit with
    | none => simp [pageJVal, limitJVal, jvNum, jsMul, jsSub, jsBin, specOffset, specNumVal, hu]
    | some t =>
      obtain ⟨v, hv⟩ := Option.isSome_iff_exists.mp (hl t rfl)
      simp [pageJVal, limitJVal, jvNum, jsMul, jsSub, jsBin, specOffset, specNumVal, hu, hv]

/-- A price filter that is absent, empty, or passes validation never trips
the handler's 400 guard. -/
theorem price_guard_false (v : Option String)
    (hv : ∀ s, v = some s → s ≠ "" → validatePrice s = true) :
    (presentStr v && !validatePrice (v.getD "")) = false := by
  cases v with
  | none => rfl
  | some s =>
    by_cases hs : s = ""
    · subst hs
      rfl
    · simp [presentStr, hs, hv s rfl hs]

/-- C3: for well-formed parameters the handler issues a single SELECT whose
WHERE clause holds exactly the present filters in category / lower-bound /
upper-bound order, followed unconditionally by ORDER BY and LIMIT/OFFSET;
the bound parameters are the clause values in append order, then the limit,
then the offset `(page - 1) * limit` with defaults `page = 1`,
`limit = 10`. -/
theorem listing_builds_spec_statement
    (page limit category_id min_price max_price sort_by order : Option String)
    (hp : ∀ s, page = some s → (jsNumber s).isSome = true)
    (hl : ∀ s, limit = some s → (jsNumber s).isSome = true)
    (hmin : ∀ s, min_price = some s → s ≠ "" → validatePrice s = true)
    (hmax : ∀ s, max_price = some s → s ≠ "" → validatePrice s = true) :
    getProducts page limit category_id min_price max_price sort_by order =
      .query
        (listText (specFilterClauses category_id min_price max_price)
          (sort_by.getD "id") (order.getD "ASC"))
        ((specFilterClauses category_id min_price max_price).map
            (fun c => JVal.str (condParam c)) ++
          [limitJVal limit, JVal.num (some (specOffset page limit))]) := by
  rw [specFilterClauses_eq]
  simp only [getProducts, price_guard_false min_price hmin,
    price_guard_false max_price hmax, Bool.false_eq_true, if_false,
    listParams, offset_eq_specOffset page limit hp hl]

/-- C3 witness: every filter present and well-formed yields the fully
assembled statement and the parameter vector in clause order, then limit,
then offset `(2 - 1) * 5 = 5`. -/
theorem listing_builds_spec_statement_witness :
    getProducts (some "2") (some "5") (some "3") (some "2") (some "9")
        (some "price") (some "DESC") =
      .query
        "SELECT * FROM products WHERE category_id = $1 AND price >= $2 AND price <= $3 ORDER BY price DESC LIMIT $4 OFFSET $5"
        [.str "3", .str "2", .str "9", .str "5", .num (some 5)] := by
  rw [listing_builds_spec_statement (some "2") (some "5") (some "3") (some "2")
    (some "9") (some "price") (some "DESC")
    (by intro s hs; cases hs; decide) (by intro s hs; cases hs; decide)
    (by intro s hs _; cases hs; decide) (by intro s hs _; cases hs; decide)]
  have h2 : jsNumber "2" = some 2 := by decide
  have h5 : jsNumber "5" = some 5 := by decide
  have hoff : specOffset (some "2") (some "5") = 5 := by
    simp [specOffset, specNumVal, h2, h5]
    norm_num
  rw [hoff]
  decide

/-- C5: for any execution of the built listing statement — any row ordering
that only permutes or drops rows, any LIMIT/OFFSET window — every returned
product's price lies within the inclusive `[min_price, max_price]` range,
each bound applied independently when supplied. -/
theorem listing_results_within_price_bounds
    (sortf : List ProductRow → List ProductRow)
    (hsort : ∀ (l : List ProductRow) (x : ProductRow), x ∈ sortf l → x ∈ l)
    (db : DB) (category_id min_price max_price : Option String)
    (lim off : Nat) (p : ProductRow)
    (hmem : p ∈ runListQuery sortf db (listConds category_id min_price max_price) lim off) :
    (∀ s, min_price = some s → s ≠ "" →
      ∃ w pq, pgParseQ s = some w ∧ p.price = some pq ∧ w ≤ pq) ∧
    (∀ s, max_price = some s → s ≠ "" →
      ∃ w pq, pgParseQ s = some w ∧ p.price = some pq ∧ pq ≤ w) := by
  have hfil : p ∈ db.products.filter
      (fun r => (listConds category_id min_price max_price).all (evalCond r)) := by
    have h1 := List.mem_of_mem_take hmem
    have h2 := List.mem_of_mem_drop h1
    exact hsort _ p h2
  have hall := (List.mem_filter.mp hfil).2
  constructor
  · intro s hse hne
    subst hse
    have hc : Cond.priceGe s ∈ listConds category_id (some s) max_price := by
      simp [listConds, optCond, hne]
    have he := List.all_eq_true.mp hall _ hc
    rcases hpp : p.price with _ | pq <;> rcases hpg : pgParseQ s with _ | w <;>
      simp [evalCond, hpp, hpg] at he
    exact ⟨w, pq, rfl, rfl, he⟩
  · intro s hse hne
    subst hse
    have hc : Cond.priceLe s ∈ listConds category_id min_price (some s) := by
      simp [listConds, optCond, hne]
    have he := List.all_eq_true.mp hall _ hc
    rcases hpp : p.price with _ | pq <;> rcases hpg : pgParseQ s with _ | w <;>
      simp [evalCond, hpp, hpg] at he
    exact ⟨w, pq, rfl, rfl, he⟩

/-- C5 witness: with filters `min_price = "2"`, `max_price = "9"` the
concrete row of price 3 is returned and both bounds hold for it. -/
theorem listing_results_within_price_bounds_witness :
    (∃ w pq, pgParseQ "2" = some w ∧ c5Row.price = some pq ∧ w ≤ pq) ∧
    (∃ w pq, pgParseQ "9" = some w ∧ c5Row.price = some pq ∧ pq ≤ w) := by
  have h := listing_results_within_price_bounds id (fun l x hx => hx)
    ⟨[c5Row], [], 2, 1⟩ none (some "2") (some "9") 10 0 c5Row (by decide)
  exact ⟨h.1 "2" rfl (by decide), h.2 "9" rfl (by decide)⟩

/-- A bare `%` pattern matches every string. -/
theorem likeMatch_percent_nil : ∀ s : List Char, likeMatch ['%'] s = true := by
  intro s
  induction s with
  | nil => simp [likeMatch]
  | cons c s ih => simp [likeMatch, ih]

/-- A `%`-headed pattern matches exactly when the remainder of the pattern
matches some suffix. -/
theorem likeMatch_percent_iff (ps : List Char) (s : List Char) :
    likeMatch ('%' :: ps) s = true ↔ ∃ t, t <:+ s ∧ likeMatch ps t = true := by
  induction s with
  | nil =>
    constructor
    · intro h
      refine ⟨[], List.suffix_refl [], ?_⟩
      simpa [likeMatch] using h
    · rintro ⟨t, ht, hm⟩
      have ht0 : t = [] := List.suffix_nil.mp ht
      subst ht0
      simpa [likeMatch] using hm
  | cons c s ih =>
    have hstep : likeMatch ('%' :: ps) (c :: s) =
        (likeMatch ps (c :: s) || likeMatch ('%' :: ps) s) := by
      simp [likeMatch]
    constructor
    · intro h
      rw [hstep] at h
      simp only [Bool.or_eq_true] at h
      rcases h with h | h
      · exact ⟨c :: s, List.suffix_refl _, h⟩
      · obtain ⟨t, ht, hm⟩ := ih.mp h
        exact ⟨t, ht.trans (List.suffix_cons c s), hm⟩
    · rintro ⟨t, ht, hm⟩
      rw [hstep]
      rcases List.suffix_cons_iff.mp ht with h | h
      · subst h
        simp [hm]
      · simp [ih.mpr ⟨t, h, hm⟩]

/-- A literal (non-wildcard) pattern character against the empty string. -/
theorem likeMatch_lit_nil_eq (a : Char) (ps : List Char)
    (h1 : a ≠ '%') (h2 : a ≠ '_') (h3 : a ≠ '\\') :
    likeMatch (a :: ps) [] = false := by
  rw [likeMatch.eq_def]
  split <;> simp_all

/-- A literal (non-wildcard) pattern character consumes one equal string
character. -/
theorem likeMatch_lit_cons_eq (a : Char) (ps : List Char)
    (h1 : a ≠ '%') (h2 : a ≠ '_') (h3 : a ≠ '\\') (c : Char) (s : List Char) :
    likeMatch (a :: ps) (c :: s) = (decide (a = c) && likeMatch ps s) := by
  rw [likeMatch.eq_def]
  split <;> simp_all

/-- A literal pattern followed by `%` matches exactly the strings with that
literal prefix. -/
theorem likeMatch_lit_percent (q : List Char)
    (hq : ∀ c ∈ q, c ≠ '%' ∧ c ≠ '_' ∧ c ≠ '\\') :
    ∀ s, likeMatch (q ++ ['%']) s = true ↔ q <+: s := by
  induction q with
  | nil => intro s; simp [likeMatch_percent_nil, List.nil_prefix]
  | cons a q' ih =>
    obtain ⟨ha1, ha2, ha3⟩ := hq a (by simp)
    have hq' : ∀ c ∈ q', c ≠ '%' ∧ c ≠ '_' ∧ c ≠ '\\' := fun c hc => hq c (by simp [hc])
    intro s
    cases s with
    | nil =>
      rw [List.cons_append, likeMatch_lit_nil_eq a (q' ++ ['%']) ha1 ha2 ha3]
      simp
    | cons c s' =>
      rw [List.cons_append, likeMatch_lit_cons_eq a (q' ++ ['%']) ha1 ha2 ha3 c s']
      simp only [Bool.and_eq_true, decide_eq_true_eq, ih hq' s', List.cons_prefix_cons]

/-- The full `%literal%` pattern matches exactly the strings containing the
literal as an infix. -/
theorem likeMatch_infix_iff (q s : List Char)
    (hq : ∀ c ∈ q, c ≠ '%' ∧ c ≠ '_' ∧ c ≠ '\\') :
    likeMatch ('%' :: (q ++ ['%'])) s = true ↔ q <:+: s := by
  rw [likeMatch_percent_iff]
  constructor
  · rintro ⟨t, ht, hm⟩
    exact List.infix_iff_prefix_suffix.mpr ⟨t, (likeMatch_lit_percent q hq t).mp hm, ht⟩
  · intro h
    obtain ⟨t, hp, hs⟩ := List.infix_iff_prefix_suffix.mp h
    exact ⟨t, hs, (likeMatch_lit_percent q hq t).mpr hp⟩

/-- `lowChar` either fixes a character or yields a lowercase letter. -/
theorem lowChar_self_or_letter (c : Char) :
    lowChar c = c ∨ lowChar c ∈
      ['a', 'b', 'c', 'd', 'e', 'f', 'g', 'h', 'i', 'j', 'k', 'l', 'm',
       'n', 'o', 'p', 'q', 'r', 's', 't', 'u', 'v', 'w', 'x', 'y', 'z'] := by
  unfold lowChar
  split <;> simp

/-- Lowercasing cannot introduce LIKE wildcard or escape characters. -/
theorem lowerL_no_wild (q : List Char)
    (hq : ∀ c ∈ q, c ≠ '%' ∧ c ≠ '_' ∧ c ≠ '\\') :
    ∀ c ∈ lowerL q, c ≠ '%' ∧ c ≠ '_' ∧ c ≠ '\\' := by
  intro c hc
  obtain ⟨c0, hc0, rfl⟩ := List.mem_map.mp hc
  rcases lowChar_self_or_letter c0 with h | h
  · rw [h]
    exact hq c0 hc0
  · have hlet : ∀ d ∈ ['a', 'b', 'c', 'd', 'e', 'f', 'g', 'h', 'i', 'j', 'k',
        'l', 'm', 'n', 'o', 'p', 'q', 'r', 's', 't', 'u', 'v', 'w', 'x', 'y', 'z'],
        d ≠ '%' ∧ d ≠ '_' ∧ d ≠ '\\' := by decide
    exact hlet _ h

/-- Lowercasing the `'%' + query + '%'` pattern string. -/
theorem lowerL_pattern (q : String) :
    lowerL ("%" ++ q ++ "%").data = '%' :: (lowerL q.data ++ ['%']) := by
  have hpc : ("%" : String).data = ['%'] := rfl
  simp [lowerL, String.data_append, hpc, lowChar]

/-- For wildcard-free queries, `ILIKE '%q%'` on a column is exactly
case-insensitive substring containment. -/
theorem ilikeOpt_eq_substrCI (v : Option String) (q : String)
    (hq : ∀ c ∈ q.data, c ≠ '%' ∧ c ≠ '_' ∧ c ≠ '\\') :
    ilikeOpt v ("%" ++ q ++ "%") = substrCI v q := by
  cases v with
  | none => rfl
  | some s =>
    simp only [ilikeOpt, substrCI, lowerL_pattern]
    have hiff := likeMatch_infix_iff (lowerL q.data) (lowerL s.data)
      (lowerL_no_wild q.data hq)
    rcases hb : likeMatch ('%' :: (lowerL q.data ++ ['%'])) (lowerL s.data) with _ | _
    · have : ¬ (lowerL q.data <:+: lowerL s.data) := fun hinf => by
        rw [hiff.mpr hinf] at hb
        cases hb
      simp [this]
    · simp [hiff.mp hb]

/-- C7 (amended): a missing (or empty, hence falsy) `query` is rejected
with InvalidParameter before any store access; for a wildcard-free query
the search returns exactly the products whose name or description contains
the query case-insensitively as a substring. Queries containing `%`, `_`
or `\` are instead interpreted under LIKE wildcard semantics (see the
counterexample). -/
theorem search_requires_query_filters_substring :
    (∀ db : DB, searchProducts db none = .badRequest "Search query is required") ∧
    (∀ (db : DB) (q : String), q ≠ "" →
      (∀ c ∈ q.data, c ≠ '%' ∧ c ≠ '_' ∧ c ≠ '\\') →
      searchProducts db (some q) =
        .rows (db.products.filter
          (fun p => substrCI p.name q || substrCI p.description q))) := by
  constructor
  · intro db
    rfl
  · intro db q hne hq
    simp only [searchProducts, hne, if_false]
    congr 1
    apply List.filter_congr
    intro p _
    rw [ilikeOpt_eq_substrCI p.name q hq, ilikeOpt_eq_substrCI p.description q hq]

/-- C7 counterexample: searching for `a%b` returns the product named `axb`,
although neither its name nor its description contains `a%b` as a substring
(case-insensitively): the `%` in the query acts as a LIKE wildcard, so the
search is not substring containment as claimed. -/
theorem search_wildcard_counterexample :
    searchProducts ⟨[c7Row], [], 2, 1⟩ (some "a%b") = .rows [c7Row] ∧
    substrCI c7Row.name "a%b" = false ∧
    substrCI c7Row.description "a%b" = false := by
  refine ⟨?_, ?_, ?_⟩
  · simp [searchProducts, c7Row, ilikeOpt, lowerL, lowChar, likeMatch]
  · simp [substrCI, c7Row, lowerL, lowChar]
    decide
  · simp [substrCI, c7Row, lowerL, lowChar]
    decide

/-- C7 witness: the missing-query rejection and a concrete wildcard-free
search returning exactly the substring matches. -/
theorem search_requires_query_filters_substring_witness :
    searchProducts ⟨[c7Row], [], 2, 1⟩ none = .badRequest "Search query is required" ∧
    searchProducts ⟨[c7Row], [], 2, 1⟩ (some "AX") =
      .rows (List.filter (fun p => substrCI p.name "AX" || substrCI p.description "AX")
        [c7Row]) := by
  constructor
  · exact search_requires_query_filters_substring.1 ⟨[c7Row], [], 2, 1⟩
  · exact search_requires_query_filters_substring.2 ⟨[c7Row], [], 2, 1⟩ "AX"
      (by decide) (by decide)

end Theorems

end ProduceApi
